import Mathlib

/-!
Verification of `src/CustomOS/scripts/ai/ollama_client.py`.

The script is a linear pipeline: read stdin, parse JSON, build a prompt
string, make one HTTP call, print the (trimmed) verdict if non-empty.
We give a shallow embedding: Python values parsed from JSON become the
inductive type `Json`; `json.loads` becomes an executable recursive-descent
parser `json_loads`; `textwrap.dedent` and `str.strip` become `dedentL` and
`stripL` over `List Char`; the HTTP layer becomes a function from the issued
request to an abstract outcome (exception / status + parsed body); the
process observables (exit code, stdout lines, whether an uncaught exception
escaped, the HTTP requests issued) are collected in `ProcResult`.

Modelling notes (deviations forced by the logic):
* JSON numerals are restricted to integers: non-integer numerals would
  require floating point, which has no faithful shallow embedding here.
  No claim involves non-integer numbers.
* Python `repr` of strings is modelled for the ASCII escapes
  (backslash, quotes, \n, \r, \t, other control characters as \xHH);
  `repr`'s escaping of unusual non-ASCII codepoints is not modelled.
  No claim depends on the rendering of such strings.
* `str.strip` is modelled on the ASCII whitespace characters.
-/

/-- A parsed JSON value, i.e. the Python value produced by `json.loads`:
`None`, `bool`, `int`, `str`, `list`, `dict` (string keys, insertion order,
unique keys). -/
inductive Json where
  | null : Json
  | bool : Bool → Json
  | num : Int → Json
  | str : String → Json
  | arr : List Json → Json
  | obj : List (String × Json) → Json

mutual
/-- Decidable equality on `Json` (the nested inductive rules out the
automatic derivation). -/
def jsonDecEq : (a b : Json) → Decidable (a = b)
  | .null, .null => .isTrue rfl
  | .bool x, .bool y =>
    if h : x = y then .isTrue (by rw [h]) else .isFalse (fun hh => h (Json.bool.inj hh))
  | .num x, .num y =>
    if h : x = y then .isTrue (by rw [h]) else .isFalse (fun hh => h (Json.num.inj hh))
  | .str x, .str y =>
    if h : x = y then .isTrue (by rw [h]) else .isFalse (fun hh => h (Json.str.inj hh))
  | .arr xs, .arr ys =>
    match jsonListDecEq xs ys with
    | .isTrue h => .isTrue (by rw [h])
    | .isFalse h => .isFalse (fun hh => h (Json.arr.inj hh))
  | .obj xs, .obj ys =>
    match jsonKVListDecEq xs ys with
    | .isTrue h => .isTrue (by rw [h])
    | .isFalse h => .isFalse (fun hh => h (Json.obj.inj hh))
  | .null, .bool _ => .isFalse (fun h => Json.noConfusion h)
  | .null, .num _ => .isFalse (fun h => Json.noConfusion h)
  | .null, .str _ => .isFalse (fun h => Json.noConfusion h)
  | .null, .arr _ => .isFalse (fun h => Json.noConfusion h)
  | .null, .obj _ => .isFalse (fun h => Json.noConfusion h)
  | .bool _, .null => .isFalse (fun h => Json.noConfusion h)
  | .bool _, .num _ => .isFalse (fun h => Json.noConfusion h)
  | .bool _, .str _ => .isFalse (fun h => Json.noConfusion h)
  | .bool _, .arr _ => .isFalse (fun h => Json.noConfusion h)
  | .bool _, .obj _ => .isFalse (fun h => Json.noConfusion h)
  | .num _, .null => .isFalse (fun h => Json.noConfusion h)
  | .num _, .bool _ => .isFalse (fun h => Json.noConfusion h)
  | .num _, .str _ => .isFalse (fun h => Json.noConfusion h)
  | .num _, .arr _ => .isFalse (fun h => Json.noConfusion h)
  | .num _, .obj _ => .isFalse (fun h => Json.noConfusion h)
  | .str _, .null => .isFalse (fun h => Json.noConfusion h)
  | .str _, .bool _ => .isFalse (fun h => Json.noConfusion h)
  | .str _, .num _ => .isFalse (fun h => Json.noConfusion h)
  | .str _, .arr _ => .isFalse (fun h => Json.noConfusion h)
  | .str _, .obj _ => .isFalse (fun h => Json.noConfusion h)
  | .arr _, .null => .isFalse (fun h => Json.noConfusion h)
  | .arr _, .bool _ => .isFalse (fun h => Json.noConfusion h)
  | .arr _, .num _ => .isFalse (fun h => Json.noConfusion h)
  | .arr _, .str _ => .isFalse (fun h => Json.noConfusion h)
  | .arr _, .obj _ => .isFalse (fun h => Json.noConfusion h)
  | .obj _, .null => .isFalse (fun h => Json.noConfusion h)
  | .obj _, .bool _ => .isFalse (fun h => Json.noConfusion h)
  | .obj _, .num _ => .isFalse (fun h => Json.noConfusion h)
  | .obj _, .str _ => .isFalse (fun h => Json.noConfusion h)
  | .obj _, .arr _ => .isFalse (fun h => Json.noConfusion h)

/-- Decidable equality on lists of `Json`. -/
def jsonListDecEq : (a b : List Json) → Decidable (a = b)
  | [], [] => .isTrue rfl
  | [], _ :: _ => .isFalse (fun h => List.noConfusion h)
  | _ :: _, [] => .isFalse (fun h => List.noConfusion h)
  | x :: xs, y :: ys =>
    match jsonDecEq x y with
    | .isFalse h => .isFalse (fun hh => h (List.cons.inj hh).1)
    | .isTrue h1 =>
      match jsonListDecEq xs ys with
      | .isTrue h2 => .isTrue (by rw [h1, h2])
      | .isFalse h => .isFalse (fun hh => h (List.cons.inj hh).2)

/-- Decidable equality on key-value lists. -/
def jsonKVListDecEq : (a b : List (String × Json)) → Decidable (a = b)
  | [], [] => .isTrue rfl
  | [], _ :: _ => .isFalse (fun h => List.noConfusion h)
  | _ :: _, [] => .isFalse (fun h => List.noConfusion h)
  | (k1, v1) :: xs, (k2, v2) :: ys =>
    if hk : k1 = k2 then
      match jsonDecEq v1 v2 with
      | .isFalse h =>
        .isFalse (fun hh => h (congrArg Prod.snd (List.cons.inj hh).1))
      | .isTrue h1 =>
        match jsonKVListDecEq xs ys with
        | .isTrue h2 => .isTrue (by rw [hk, h1, h2])
        | .isFalse h => .isFalse (fun hh => h (List.cons.inj hh).2)
    else .isFalse (fun hh => hk (congrArg Prod.fst (List.cons.inj hh).1))
end

instance : DecidableEq Json := jsonDecEq

/-- Python truthiness of a JSON-derived value: `None`, `False`, `0`, `""`,
`[]` and the empty dict are falsy, everything else is truthy. -/
def truthy : Json → Bool
  | .null => false
  | .bool b => b
  | .num n => n != 0
  | .str s => s != ""
  | .arr xs => !xs.isEmpty
  | .obj kvs => !kvs.isEmpty

/-- `d.get(k)` on a Python dict represented as an association list with
unique keys: `some v` when the key is present, `none` (Python `None`)
otherwise. -/
def dictGet : List (String × Json) → String → Option Json
  | [], _ => none
  | (k0, v) :: rest, k => if k0 = k then some v else dictGet rest k

/-- Insertion into a Python dict: an existing key keeps its position and is
remapped, a new key is appended.  Used by the object parser, so parsed
objects have unique keys (duplicate keys in the source text: last one wins,
as in `json.loads`). -/
def insKV : List (String × Json) → String → Json → List (String × Json)
  | [], k, v => [(k, v)]
  | (k0, v0) :: rest, k, v =>
      if k0 = k then (k0, v) :: rest else (k0, v0) :: insKV rest k v

/-- Whether the value is a Python dict (a JSON object). -/
def Json.isObj : Json → Bool
  | .obj _ => true
  | _ => false

/-- Lowercase hex digit, for Python `repr`-style \xHH escapes. -/
def hexDigit (n : Nat) : Char :=
  if n < 10 then Char.ofNat (48 + n) else Char.ofNat (87 + n)

/-- One character of a Python string `repr` with quote character `q`:
backslash and the quote are escaped, \n \r \t get their short escapes,
other control characters become \xHH, everything else is kept. -/
def pyEscChar (q : Char) (c : Char) : List Char :=
  if c = '\\' then ['\\', '\\']
  else if c = q then ['\\', q]
  else if c = '\n' then ['\\', 'n']
  else if c = '\r' then ['\\', 'r']
  else if c = '\t' then ['\\', 't']
  else if c.toNat < 32 || c.toNat = 127 then
    ['\\', 'x', hexDigit (c.toNat / 16), hexDigit (c.toNat % 16)]
  else [c]

/-- Python `repr` of a string: single quotes, unless the string contains a
single quote and no double quote. -/
def pyReprStrL (s : List Char) : List Char :=
  let q : Char := if s.contains '\'' && !(s.contains '"') then '"' else '\''
  q :: (s.map (pyEscChar q)).flatten ++ [q]

/-- Comma-space join, as in Python `repr` of lists and dicts. -/
def joinComma (ls : List (List Char)) : List Char :=
  List.intercalate (", ".data) ls

mutual
/-- Python `repr` of a JSON-derived value (what `str` uses inside
containers): `None`/`True`/`False`, decimal integers, quoted strings,
`[...]` lists and `\x7b...\x7d` dicts with `, ` separators. -/
def pyRepr : Json → List Char
  | .null => "None".data
  | .bool b => if b then "True".data else "False".data
  | .num n => (toString n).data
  | .str s => pyReprStrL s.data
  | .arr xs => '[' :: joinComma (pyReprArr xs) ++ [']']
  | .obj kvs => '\x7b' :: joinComma (pyReprObj kvs) ++ ['\x7d']

/-- `repr` of the elements of a list. -/
def pyReprArr : List Json → List (List Char)
  | [] => []
  | x :: xs => pyRepr x :: pyReprArr xs

/-- `repr` of the `key: value` items of a dict. -/
def pyReprObj : List (String × Json) → List (List Char)
  | [] => []
  | (k, v) :: rest => (pyReprStrL k.data ++ ':' :: ' ' :: pyRepr v) :: pyReprObj rest
end

/-- Python `str` of a JSON-derived value, as used by f-string interpolation:
a string is itself, everything else is its `repr`. -/
def pyStr : Json → String
  | .str s => s
  | v => ⟨pyRepr v⟩

/-- The whitespace characters skipped by the JSON grammar. -/
def isJsonWS (c : Char) : Bool :=
  c = ' ' || c = '\t' || c = '\n' || c = '\r'

/-- Skip JSON whitespace. -/
def skipWs (l : List Char) : List Char := l.dropWhile isJsonWS

/-- Value of a hex digit, for \uXXXX escapes. -/
def hexVal (c : Char) : Option Nat :=
  if '0' ≤ c && c ≤ '9' then some (c.toNat - 48)
  else if 'a' ≤ c && c ≤ 'f' then some (c.toNat - 87)
  else if 'A' ≤ c && c ≤ 'F' then some (c.toNat - 55)
  else none

/-- Body of a JSON string after the opening quote, strict mode: unescaped
control characters are rejected; escapes are the standard JSON ones.
(\uXXXX surrogate values outside Lean scalar range map to U+0000; lone
surrogates are a corner Python represents but `Char` cannot.)  Returns the
accumulated characters (reversed accumulator) and the rest of the input. -/
def pStringBody : Nat → List Char → List Char → Option (List Char × List Char)
  | 0, _, _ => none
  | f + 1, acc, input =>
    match input with
    | [] => none
    | '"' :: rest => some (acc.reverse, rest)
    | '\\' :: e :: rest =>
      match e with
      | '"' => pStringBody f ('"' :: acc) rest
      | '\\' => pStringBody f ('\\' :: acc) rest
      | '/' => pStringBody f ('/' :: acc) rest
      | 'b' => pStringBody f ('\x08' :: acc) rest
      | 'f' => pStringBody f ('\x0c' :: acc) rest
      | 'n' => pStringBody f ('\n' :: acc) rest
      | 'r' => pStringBody f ('\r' :: acc) rest
      | 't' => pStringBody f ('\t' :: acc) rest
      | 'u' =>
        match rest with
        | a :: b :: c :: d :: rest2 =>
          match hexVal a, hexVal b, hexVal c, hexVal d with
          | some x, some y, some z, some w =>
              pStringBody f (Char.ofNat (((x * 16 + y) * 16 + z) * 16 + w) :: acc) rest2
          | _, _, _, _ => none
        | _ => none
      | _ => none
    | c :: rest =>
      if c.toNat < 32 then none else pStringBody f (c :: acc) rest

/-- Decimal value of a digit run. -/
def digitsToNat (ds : List Char) : Nat :=
  ds.foldl (fun acc c => acc * 10 + (c.toNat - 48)) 0

/-- A JSON number at the head of the input.  Integer numerals only
(optional minus, digits, no leading zeros); a fraction or exponent marks a
non-integer numeral, which is outside this model (floating point). -/
def pNumber (l : List Char) : Option (Json × List Char) :=
  let neg : Bool := match l with | '-' :: _ => true | _ => false
  let l1 := match l with | '-' :: r => r | _ => l
  let ds := l1.takeWhile Char.isDigit
  let rest := l1.dropWhile Char.isDigit
  if ds.isEmpty then none
  else if ds.length > 1 && ds.head? = some '0' then none
  else
    match rest with
    | '.' :: _ => none
    | 'e' :: _ => none
    | 'E' :: _ => none
    | _ =>
      let n : Int := Int.ofNat (digitsToNat ds)
      some (.num (if neg then -n else n), rest)

mutual
/-- One JSON value at the head of the input (after whitespace), with the
unconsumed rest.  Fueled recursive descent over the JSON grammar accepted
by `json.loads`. -/
def pVal : Nat → List Char → Option (Json × List Char)
  | 0, _ => none
  | f + 1, input =>
    match skipWs input with
    | 'n' :: 'u' :: 'l' :: 'l' :: rest => some (.null, rest)
    | 't' :: 'r' :: 'u' :: 'e' :: rest => some (.bool true, rest)
    | 'f' :: 'a' :: 'l' :: 's' :: 'e' :: rest => some (.bool false, rest)
    | '"' :: rest =>
      match pStringBody (f + 1) [] rest with
      | some (cs, r) => some (.str ⟨cs⟩, r)
      | none => none
    | '[' :: rest =>
      (match skipWs rest with
       | ']' :: r => some (.arr [], r)
       | _ => pElems f rest [])
    | '\x7b' :: rest =>
      (match skipWs rest with
       | '\x7d' :: r => some (.obj [], r)
       | _ => pMembers f rest [])
    | l => pNumber l

/-- Comma-separated array elements after `[`, accumulating to the left. -/
def pElems : Nat → List Char → List Json → Option (Json × List Char)
  | 0, _, _ => none
  | f + 1, input, acc =>
    match pVal f input with
    | none => none
    | some (v, r) =>
      match skipWs r with
      | ',' :: r2 => pElems f r2 (acc ++ [v])
      | ']' :: r2 => some (.arr (acc ++ [v]), r2)
      | _ => none

/-- Comma-separated `"key": value` members after `\x7b`, building the dict
with `insKV` (so a repeated key is remapped, last occurrence wins). -/
def pMembers : Nat → List Char → List (String × Json) → Option (Json × List Char)
  | 0, _, _ => none
  | f + 1, input, acc =>
    match skipWs input with
    | '"' :: rest =>
      match pStringBody (f + 1) [] rest with
      | none => none
      | some (kcs, r1) =>
        match skipWs r1 with
        | ':' :: r2 =>
          match pVal f r2 with
          | none => none
          | some (v, r3) =>
            match skipWs r3 with
            | ',' :: r4 => pMembers f r4 (insKV acc ⟨kcs⟩ v)
            | '\x7d' :: r4 => some (.obj (insKV acc ⟨kcs⟩ v), r4)
            | _ => none
        | _ => none
    | _ => none
end

/-- `json.loads`: parse one JSON value, allow trailing whitespace only;
`none` is a raised `JSONDecodeError`.  The fuel `2 * length + 2` is enough
for the mutual descent, which consumes at least one character every other
step. -/
def json_loads (s : String) : Option Json :=
  let cs := s.data
  match pVal (2 * cs.length + 2) cs with
  | some (v, r) => if skipWs r = [] then some v else none
  | none => none


/-- The ASCII whitespace characters removed by Python `str.strip()`. -/
def isWS (c : Char) : Bool :=
  c = ' ' || c = '\t' || c = '\n' || c = '\r' || c = '\x0b' || c = '\x0c'

/-- The indentation characters of `textwrap.dedent` (space and tab). -/
def isIndentChar (c : Char) : Bool := c = ' ' || c = '\t'

/-- Split at newline characters, like Python regex MULTILINE line
structure: `splitNL l` always returns one chunk more than the number of
newlines in `l`. -/
def splitNL : List Char → List (List Char)
  | [] => [[]]
  | c :: cs =>
    if c = '\n' then [] :: splitNL cs
    else
      match splitNL cs with
      | [] => [[c]]
      | l :: ls => (c :: l) :: ls

/-- Rejoin lines with newlines; left inverse of `splitNL`. -/
def joinNL : List (List Char) → List Char
  | [] => []
  | [l] => l
  | l :: ls => l ++ '\n' :: joinNL ls

/-- Longest common prefix of two character lists, as computed by the margin
loop of `textwrap.dedent`. -/
def comPre : List Char → List Char → List Char
  | a :: as, b :: bs => if a = b then a :: comPre as bs else []
  | _, _ => []

/-- Fold of `comPre` over a list of indents: the common margin. -/
def foldCP : List (List Char) → List Char
  | [] => []
  | i :: is => is.foldl comPre i

/-- The indents of the lines that contain a non-whitespace character
(`textwrap.dedent`'s `_leading_whitespace_re.findall`). -/
def lineIndents (lines : List (List Char)) : List (List Char) :=
  lines.filterMap fun l =>
    if l.all isIndentChar then none else some (l.takeWhile isIndentChar)

/-- `textwrap.dedent`: normalize whitespace-only lines to empty, compute
the common leading-whitespace margin of the remaining lines, and remove it
from the start of every line that carries it. -/
def dedentL (s : List Char) : List Char :=
  let norm := (splitNL s).map fun l => if l.all isIndentChar then ([] : List Char) else l
  let m := foldCP (lineIndents norm)
  joinNL (norm.map fun l => if m.isPrefixOf l then l.drop m.length else l)

/-- Python `str.strip()` on character lists: drop ASCII whitespace from
both ends. -/
def stripL (l : List Char) : List Char :=
  ((l.dropWhile isWS).reverse.dropWhile isWS).reverse

/-- Python `str.strip()` on strings. -/
def pyStripS (s : String) : String := ⟨stripL s.data⟩

/-- The f-string template of `build_prompt` up to the first interpolation
(`...CPU load: {cpu}`). -/
def tmplA : String := "\n        You are the CustomOS Guardian, a concise monitoring assistant.\n\n        Your job:\n          - Look at CPU, memory, and service status.\n          - Respond with ONE or two short sentences.\n          - If everything looks fine, say \"All systems green.\"\n          - If any problem is detected, mention it explicitly\n            (e.g., \"Issue detected in Plex service\").\n\n        Data (JSON):\n        CPU load: "

/-- The template between `{cpu}` and `{memory}`. -/
def tmplB : String := "\n        Memory: "

/-- The template between `{memory}` and `{services}`. -/
def tmplC : String := "\n        Services: "

/-- The template after `{services}`, up to the closing quotes. -/
def tmplD : String := "\n\n        Respond with a short human-friendly verdict only, no JSON, no extra explanation.\n        "

/-- The interpolated f-string of `build_prompt`, before `dedent` and
`strip`: the fixed template with `str()` of the three looked-up values. -/
def promptRaw (cpu memory services : Json) : List Char :=
  tmplA.data ++ (pyStr cpu).data ++ tmplB.data ++ (pyStr memory).data
    ++ tmplC.data ++ (pyStr services).data ++ tmplD.data

/-- `build_prompt(metrics)`: look up `services`, `memory`, `cpu_load`
(each defaulting to the empty dict), interpolate them into the template,
dedent, and strip. -/
def build_prompt (metrics : List (String × Json)) : String :=
  let services := (dictGet metrics "services").getD (.obj [])
  let memory := (dictGet metrics "memory").getD (.obj [])
  let cpu := (dictGet metrics "cpu_load").getD (.obj [])
  ⟨stripL (dedentL (promptRaw cpu memory services))⟩

/-- The two environment variables the script reads at startup
(`none` = unset). -/
structure Env where
  apiUrl : Option String
  model : Option String
deriving DecidableEq

/-- `OLLAMA_API_URL = os.environ.get("OLLAMA_API_URL", "http://localhost:11434/api/generate")`. -/
def OLLAMA_API_URL (env : Env) : String :=
  env.apiUrl.getD "http://localhost:11434/api/generate"

/-- `OLLAMA_MODEL = os.environ.get("OLLAMA_MODEL", "llama3")`. -/
def OLLAMA_MODEL (env : Env) : String :=
  env.model.getD "llama3"

/-- One outgoing HTTP request as issued by `requests.post(url, json=body,
timeout=...)`. -/
structure Request where
  method : String
  url : String
  body : Json
  timeout : Nat
deriving DecidableEq

/-- What the HTTP layer did for a request: raised some exception during the
call (connection refused, timeout, ...), or produced a response with a
status code and a body; the body is `some` parsed JSON, or `none` when
`resp.json()` raises because the body is not valid JSON. -/
inductive HttpResult where
  | exn : HttpResult
  | resp : Nat → Option Json → HttpResult
deriving DecidableEq

/-- The single request `call_ollama` issues: a POST to `OLLAMA_API_URL`
with JSON body `\x7b"model": ..., "prompt": ..., "stream": false\x7d` and a
15-second timeout. -/
def ollamaRequest (env : Env) (prompt : String) : Request :=
  ⟨"POST", OLLAMA_API_URL env,
    .obj [("model", .str (OLLAMA_MODEL env)), ("prompt", .str prompt),
          ("stream", .bool false)], 15⟩

/-- Python `or` on JSON-derived values: the left operand when truthy, the
right one otherwise. -/
def jor (a b : Json) : Json := if truthy a then a else b

/-- `data.get("response") or data.get("text") or ""` followed by
`.strip()`, with every exception of the `try` block mapped to `""`:
a non-dict body raises `AttributeError` on `.get` (caught), a truthy
non-string winner raises `AttributeError` on `.strip()` (caught). -/
def extractVerdict : Json → String
  | .obj kvs =>
    match jor ((dictGet kvs "response").getD .null)
        (jor ((dictGet kvs "text").getD .null) (.str "")) with
    | .str s => pyStripS s
    | _ => ""
  | _ => ""

/-- `call_ollama(prompt)`: issue the one request; any exception of the
`try` block (the request itself, `raise_for_status` on a 4xx/5xx status,
`resp.json()` on a non-JSON body, the field extraction) yields `""`. -/
def call_ollama (env : Env) (http : Request → HttpResult) (prompt : String) : String :=
  match http (ollamaRequest env prompt) with
  | .exn => ""
  | .resp status body =>
    if 400 ≤ status ∧ status < 600 then ""
    else
      match body with
      | none => ""
      | some data => extractVerdict data

/-- Python `or` on two strings: the left one when non-empty
(`raw or "\x7b\x7d"` in `main`). -/
def pyOr (a b : String) : String := if a = "" then b else a

/-- The observable outcome of one process run: exit code, the lines printed
to stdout, whether an uncaught exception escaped `main` (Python then exits
with code 1 and a traceback on stderr), and the HTTP requests issued. -/
structure ProcResult where
  exitCode : Nat
  stdout : List String
  crashed : Bool
  requests : List Request
deriving DecidableEq

/-- The whole process: the `import requests` guard (`sys.exit(0)` when the
dependency is unavailable), `main()`'s `try` around reading stdin and
`json.loads(raw or "\x7b\x7d")` (`sys.exit(0)` on a parse error), then
`build_prompt` / `call_ollama` / `print` outside any handler — so a
non-dict parse result crashes with `AttributeError` in `build_prompt`
before any request is made. -/
def mainProc (env : Env) (requestsAvailable : Bool) (http : Request → HttpResult)
    (stdin : String) : ProcResult :=
  if requestsAvailable then
    match json_loads (pyOr stdin "\x7b\x7d") with
    | none => ⟨0, [], false, []⟩
    | some (Json.obj kvs) =>
      let prompt := build_prompt kvs
      let verdict := call_ollama env http prompt
      ⟨0, if verdict = "" then [] else [verdict], false, [ollamaRequest env prompt]⟩
    | some _ => ⟨1, [], true, []⟩
  else ⟨0, [], false, []⟩

/-- The environment with neither variable set. -/
def envDefault : Env := ⟨none, none⟩

/-- An HTTP layer that always raises. -/
def httpExn : Request → HttpResult := fun _ => .exn

/-- An HTTP layer that always answers 200 with body
`\x7b"response": s\x7d`. -/
def httpOK (s : String) : Request → HttpResult :=
  fun _ => .resp 200 (some (.obj [("response", .str s)]))

/-- Eight spaces: the indentation of the outermost template lines. -/
def sp8 : List Char := "        ".data

/-- Everything before the first newline. -/
def firstLine (l : List Char) : List Char := l.takeWhile (fun c => c != '\n')

/-- Drop trailing ASCII whitespace (the right half of `stripL`). -/
def dropRWS (l : List Char) : List Char := (l.reverse.dropWhile isWS).reverse

theorem stripL_eq_dropRWS (l : List Char) :
    stripL l = dropRWS (l.dropWhile isWS) := rfl

theorem isWS_of_isIndentChar {c : Char} (h : isIndentChar c = true) : isWS c = true := by
  simp only [isIndentChar, Bool.or_eq_true, decide_eq_true_eq] at h
  rcases h with h | h <;> simp [isWS, h]

theorem splitNL_ne_nil (l : List Char) : splitNL l ≠ [] := by
  cases l with
  | nil => simp [splitNL]
  | cons c cs =>
    by_cases h : c = '\n'
    · simp [splitNL, h]
    · simp only [splitNL, h, if_false]
      cases splitNL cs <;> simp

theorem splitNL_head (m : List Char) :
    ∃ rest, splitNL m = firstLine m :: rest := by
  induction m with
  | nil => exact ⟨[], rfl⟩
  | cons c cs ih =>
    by_cases h : c = '\n'
    · subst h
      refine ⟨splitNL cs, ?_⟩
      simp [splitNL, firstLine]
    · obtain ⟨rest, hr⟩ := ih
      refine ⟨rest, ?_⟩
      have hb : (c != '\n') = true := by simpa using h
      have h1 : firstLine (c :: cs) = c :: firstLine cs := by
        simp [firstLine, List.takeWhile_cons, hb]
      rw [h1]
      simp [splitNL, h, hr]

theorem mem_tail_splitNL (p : List Char) :
    ∀ m ℓ rest, splitNL m = ℓ :: rest → ℓ ∈ (splitNL (p ++ '\n' :: m)).tail := by
  induction p with
  | nil =>
    intro m ℓ rest h
    simp [splitNL, h]
  | cons c p' ih =>
    intro m ℓ rest h
    by_cases hc : c = '\n'
    · subst hc
      have := ih m ℓ rest h
      have hmem : ℓ ∈ splitNL (p' ++ '\n' :: m) := by
        rcases he : splitNL (p' ++ '\n' :: m) with _ | ⟨x, xs⟩
        · exact absurd he (splitNL_ne_nil _)
        · rw [he] at this
          simp only [List.tail_cons] at this
          exact List.mem_cons_of_mem _ this
      simpa [splitNL] using hmem
    · have := ih m ℓ rest h
      rcases he : splitNL (p' ++ '\n' :: m) with _ | ⟨x, xs⟩
      · exact absurd he (splitNL_ne_nil _)
      · rw [he] at this
        simp only [List.tail_cons] at this
        simp [splitNL, hc, he, this]

theorem mem_splitNL_after (p m ℓ : List Char) (rest : List (List Char))
    (h : splitNL m = ℓ :: rest) :
    ℓ ∈ splitNL (p ++ '\n' :: m) := by
  have := mem_tail_splitNL p m ℓ rest h
  rcases he : splitNL (p ++ '\n' :: m) with _ | ⟨x, xs⟩
  · exact absurd he (splitNL_ne_nil _)
  · rw [he] at this
    simp only [List.tail_cons] at this
    exact List.mem_cons_of_mem _ this

theorem infix_joinNL {x : List Char} :
    ∀ {ls : List (List Char)}, x ∈ ls → x <:+: joinNL ls := by
  intro ls
  induction ls with
  | nil => intro h; cases h
  | cons y ys ih =>
    intro h
    cases ys with
    | nil =>
      have hx := List.mem_singleton.mp h
      subst hx
      simp [joinNL]
    | cons z zs =>
      rcases List.mem_cons.mp h with h | h
      · subst h
        exact ⟨[], '\n' :: joinNL (z :: zs), by simp [joinNL]⟩
      · have hx := ih h
        obtain ⟨u, v, huv⟩ := hx
        exact ⟨y ++ '\n' :: u, v, by simp [joinNL, ← huv]⟩

theorem comPre_pre_left : ∀ a b : List Char, comPre a b <+: a := by
  intro a
  induction a with
  | nil => intro b; cases b <;> simp [comPre]
  | cons x xs ih =>
    intro b
    cases b with
    | nil => simp [comPre]
    | cons y ys =>
      by_cases h : x = y
      · simpa [comPre, h] using ih ys
      · simp [comPre, h]

theorem comPre_pre_right : ∀ a b : List Char, comPre a b <+: b := by
  intro a
  induction a with
  | nil => intro b; cases b <;> simp [comPre]
  | cons x xs ih =>
    intro b
    cases b with
    | nil => simp [comPre]
    | cons y ys =>
      by_cases h : x = y
      · subst h
        simpa [comPre] using ih ys
      · simp [comPre, h]

theorem foldl_comPre_acc : ∀ (is : List (List Char)) (acc : List Char),
    is.foldl comPre acc <+: acc := by
  intro is
  induction is with
  | nil => intro acc; simp
  | cons i is ih =>
    intro acc
    exact (ih (comPre acc i)).trans (comPre_pre_left acc i)

theorem foldl_comPre_mem {x : List Char} : ∀ (is : List (List Char)) (acc : List Char),
    x ∈ is → is.foldl comPre acc <+: x := by
  intro is
  induction is with
  | nil => intro acc h; cases h
  | cons i is ih =>
    intro acc h
    rcases List.mem_cons.mp h with h | h
    · subst h
      exact (foldl_comPre_acc is (comPre acc x)).trans (comPre_pre_right acc x)
    · exact ih (comPre acc i) h

theorem foldCP_mem {x : List Char} {l : List (List Char)} (h : x ∈ l) :
    foldCP l <+: x := by
  cases l with
  | nil => cases h
  | cons i is =>
    rcases List.mem_cons.mp h with h | h
    · subst h
      exact foldl_comPre_acc is x
    · exact foldl_comPre_mem is i h

theorem infix_dropWhileWS {t l : List Char} {c : Char}
    (h : t <:+: l) (hh : t.head? = some c) (hc : isWS c = false) :
    t <:+: l.dropWhile isWS := by
  obtain ⟨u, v, huv⟩ := h
  subst huv
  rw [List.append_assoc]
  induction u with
  | nil =>
    obtain ⟨t', ht⟩ := List.head?_eq_some_iff.mp hh
    subst ht
    rw [List.nil_append, List.cons_append,
      List.dropWhile_cons_of_neg (by simp [hc])]
    exact ⟨[], v, by simp⟩
  | cons a u' ih =>
    rw [List.cons_append]
    by_cases ha : isWS a = true
    · rw [List.dropWhile_cons_of_pos ha]
      exact ih
    · rw [List.dropWhile_cons_of_neg (by simp [ha])]
      exact ⟨a :: u', v, by simp⟩

theorem dropRWS_cons_of_neg {c : Char} (l : List Char) (hc : isWS c = false) :
    dropRWS (c :: l) = c :: dropRWS l := by
  have hcne : ¬ isWS c = true := by simp [hc]
  unfold dropRWS
  rw [List.reverse_cons, List.dropWhile_append]
  by_cases he : (l.reverse.dropWhile isWS).isEmpty
  · have h0 : l.reverse.dropWhile isWS = [] := by
      simpa [List.isEmpty_iff] using he
    rw [if_pos he, List.dropWhile_cons_of_neg hcne, h0]
    simp
  · rw [if_neg he]
    simp

theorem infix_stripL {t l : List Char} {c d : Char}
    (h : t <:+: l) (hh : t.head? = some c) (hc : isWS c = false)
    (hl : t.getLast? = some d) (hd : isWS d = false) :
    t <:+: stripL l := by
  have h1 : t <:+: l.dropWhile isWS := infix_dropWhileWS h hh hc
  have h2 : t.reverse <:+: (l.dropWhile isWS).reverse := List.reverse_infix.mpr h1
  have hh2 : t.reverse.head? = some d := by
    rw [List.head?_reverse]
    exact hl
  have h3 : t.reverse <:+: (l.dropWhile isWS).reverse.dropWhile isWS :=
    infix_dropWhileWS h2 hh2 hd
  have h4 := List.reverse_infix.mpr h3
  simpa [stripL] using h4

theorem dropWhile_dropWhileWS (l : List Char) :
    (l.dropWhile isWS).dropWhile isWS = l.dropWhile isWS := by
  induction l with
  | nil => simp
  | cons a l ih =>
    by_cases ha : isWS a = true
    · simpa [List.dropWhile_cons_of_pos ha] using ih
    · rw [List.dropWhile_cons_of_neg ha, List.dropWhile_cons_of_neg ha]

theorem dropRWS_idem (l : List Char) : dropRWS (dropRWS l) = dropRWS l := by
  unfold dropRWS
  rw [List.reverse_reverse, dropWhile_dropWhileWS]

theorem dropWhile_dropRWS {l : List Char} (h : l.dropWhile isWS = l) :
    (dropRWS l).dropWhile isWS = dropRWS l := by
  cases l with
  | nil => simp [dropRWS]
  | cons a l =>
    have ha : isWS a = false := by
      have h2 := List.dropWhile_eq_self_iff.mp h (by simp)
      simpa using h2
    rw [dropRWS_cons_of_neg l ha, List.dropWhile_cons_of_neg (by simp [ha])]

theorem stripL_idem (l : List Char) : stripL (stripL l) = stripL l := by
  rw [stripL_eq_dropRWS, stripL_eq_dropRWS]
  rw [dropWhile_dropRWS (dropWhile_dropWhileWS l), dropRWS_idem]

theorem infix_stripL_dedentL (s p t rest : List Char) (c d : Char)
    (hs : s = p ++ '\n' :: (sp8 ++ (t ++ rest)))
    (hh : t.head? = some c) (hc : isWS c = false)
    (hl : t.getLast? = some d) (hd : isWS d = false)
    (hn : '\n' ∉ t) :
    t <:+: stripL (dedentL s) := by
  subst hs
  have hsp8 : ∀ a ∈ sp8, (a != '\n') = true := by decide
  have htn : ∀ a ∈ t, (a != '\n') = true := by
    intro a hat
    simp only [bne_iff_ne, ne_eq]
    intro hne
    subst hne
    exact hn hat
  obtain ⟨t', ht'⟩ := List.head?_eq_some_iff.mp hh
  have hcInd : isIndentChar c = false := by
    cases hci : isIndentChar c
    · rfl
    · exact absurd (isWS_of_isIndentChar hci) (by simp [hc])
  have hfl : firstLine (sp8 ++ (t ++ rest)) = sp8 ++ (t ++ firstLine rest) := by
    unfold firstLine
    rw [List.takeWhile_append_of_pos hsp8, List.takeWhile_append_of_pos htn]
  obtain ⟨tail1, hsplit⟩ := splitNL_head (sp8 ++ (t ++ rest))
  rw [hfl] at hsplit
  set L := sp8 ++ (t ++ firstLine rest) with hL
  have hmem : L ∈ splitNL (p ++ '\n' :: (sp8 ++ (t ++ rest))) :=
    mem_splitNL_after p _ _ tail1 hsplit
  have hcmem : c ∈ L := by
    rw [hL, ht']
    simp
  have hall : L.all isIndentChar = false :=
    List.all_eq_false.mpr ⟨c, hcmem, by simp [hcInd]⟩
  have hIndAll : ∀ a ∈ sp8, isIndentChar a = true := by decide
  have hTw : L.takeWhile isIndentChar = sp8 := by
    rw [hL, List.takeWhile_append_of_pos hIndAll, ht', List.cons_append,
      List.takeWhile_cons_of_neg (by simp [hcInd])]
    simp
  set norm := (splitNL (p ++ '\n' :: (sp8 ++ (t ++ rest)))).map
    (fun l => if l.all isIndentChar then ([] : List Char) else l) with hnorm
  have hmemN : L ∈ norm := by
    rw [hnorm]
    exact List.mem_map.mpr ⟨L, hmem, by rw [hall]; simp⟩
  have hIndMem : sp8 ∈ lineIndents norm := by
    unfold lineIndents
    exact List.mem_filterMap.mpr ⟨L, hmemN, by rw [hall]; simp [hTw]⟩
  set M := foldCP (lineIndents norm) with hM
  have hmpre : M <+: sp8 := foldCP_mem hIndMem
  have hmlen : M.length ≤ sp8.length := hmpre.length_le
  have hmL : M <+: L := hmpre.trans (by rw [hL]; exact List.prefix_append sp8 _)
  have hmP : M.isPrefixOf L = true := List.isPrefixOf_iff_prefix.mpr hmL
  have hdropEq : L.drop M.length = sp8.drop M.length ++ (t ++ firstLine rest) := by
    rw [hL]
    exact List.drop_append_of_le_length hmlen
  have hinf1 : t <:+: L.drop M.length := by
    rw [hdropEq]
    exact List.infix_append' _ _ _
  have hmemF : L.drop M.length ∈
      norm.map (fun l => if M.isPrefixOf l then l.drop M.length else l) :=
    List.mem_map.mpr ⟨L, hmemN, by rw [if_pos hmP]⟩
  have hinf2 : t <:+:
      joinNL (norm.map (fun l => if M.isPrefixOf l then l.drop M.length else l)) :=
    hinf1.trans (infix_joinNL hmemF)
  exact infix_stripL hinf2 hh hc hl hd

set_option maxRecDepth 40000 in
/-- Claim C4: for every input mapping, `build_prompt` succeeds and returns a
non-empty string that contains the literal substrings "CPU load:",
"Memory:", "Services:" and carries no leading or trailing whitespace
(stripping it again changes nothing); an absent `services`, `memory` or
`cpu_load` key is rendered as the empty mapping (the prompt then contains
"Services: \x7b\x7d", "Memory: \x7b\x7d", "CPU load: \x7b\x7d"
respectively).  Totality of `build_prompt` is the Lean counterpart of
"cannot fail". -/
theorem spec_c4 (metrics : List (String × Json)) :
    build_prompt metrics ≠ "" ∧
    "CPU load:".data <:+: (build_prompt metrics).data ∧
    "Memory:".data <:+: (build_prompt metrics).data ∧
    "Services:".data <:+: (build_prompt metrics).data ∧
    stripL (build_prompt metrics).data = (build_prompt metrics).data ∧
    (dictGet metrics "services" = none →
      "Services: \x7b\x7d".data <:+: (build_prompt metrics).data) ∧
    (dictGet metrics "memory" = none →
      "Memory: \x7b\x7d".data <:+: (build_prompt metrics).data) ∧
    (dictGet metrics "cpu_load" = none →
      "CPU load: \x7b\x7d".data <:+: (build_prompt metrics).data) := by
  set cpuv := (dictGet metrics "cpu_load").getD (Json.obj []) with hcpuv
  set memv := (dictGet metrics "memory").getD (Json.obj []) with hmemv
  set svcv := (dictGet metrics "services").getD (Json.obj []) with hsvcv
  have hdata : (build_prompt metrics).data =
      stripL (dedentL (promptRaw cpuv memv svcv)) := by
    simp only [build_prompt]
  have hcpu : "CPU load:".data <:+: (build_prompt metrics).data := by
    rw [hdata]
    have hshape : promptRaw cpuv memv svcv =
        "\n        You are the CustomOS Guardian, a concise monitoring assistant.\n\n        Your job:\n          - Look at CPU, memory, and service status.\n          - Respond with ONE or two short sentences.\n          - If everything looks fine, say \"All systems green.\"\n          - If any problem is detected, mention it explicitly\n            (e.g., \"Issue detected in Plex service\").\n\n        Data (JSON):".data
          ++ '\n' :: (sp8 ++ ("CPU load:".data ++
            (' ' :: ((pyStr cpuv).data ++ (tmplB.data ++ ((pyStr memv).data ++
              (tmplC.data ++ ((pyStr svcv).data ++ tmplD.data)))))))) := by
      simp only [promptRaw]
      rw [show tmplA.data =
        "\n        You are the CustomOS Guardian, a concise monitoring assistant.\n\n        Your job:\n          - Look at CPU, memory, and service status.\n          - Respond with ONE or two short sentences.\n          - If everything looks fine, say \"All systems green.\"\n          - If any problem is detected, mention it explicitly\n            (e.g., \"Issue detected in Plex service\").\n\n        Data (JSON):".data
          ++ '\n' :: (sp8 ++ ("CPU load:".data ++ [' '])) from by decide]
      simp [List.append_assoc]
    exact infix_stripL_dedentL _ _ _ _ 'C' ':' hshape (by decide) (by decide)
      (by decide) (by decide) (by decide)
  have hmem : "Memory:".data <:+: (build_prompt metrics).data := by
    rw [hdata]
    have hshape : promptRaw cpuv memv svcv =
        (tmplA.data ++ (pyStr cpuv).data)
          ++ '\n' :: (sp8 ++ ("Memory:".data ++
            (' ' :: ((pyStr memv).data ++ (tmplC.data ++
              ((pyStr svcv).data ++ tmplD.data)))))) := by
      simp only [promptRaw]
      rw [show tmplB.data = '\n' :: (sp8 ++ ("Memory:".data ++ [' '])) from by decide]
      simp [List.append_assoc]
    exact infix_stripL_dedentL _ _ _ _ 'M' ':' hshape (by decide) (by decide)
      (by decide) (by decide) (by decide)
  have hsvc : "Services:".data <:+: (build_prompt metrics).data := by
    rw [hdata]
    have hshape : promptRaw cpuv memv svcv =
        (tmplA.data ++ ((pyStr cpuv).data ++ (tmplB.data ++ (pyStr memv).data)))
          ++ '\n' :: (sp8 ++ ("Services:".data ++
            (' ' :: ((pyStr svcv).data ++ tmplD.data)))) := by
      simp only [promptRaw]
      rw [show tmplC.data = '\n' :: (sp8 ++ ("Services:".data ++ [' '])) from by decide]
      simp [List.append_assoc]
    exact infix_stripL_dedentL _ _ _ _ 'S' ':' hshape (by decide) (by decide)
      (by decide) (by decide) (by decide)
  have hne : build_prompt metrics ≠ "" := by
    intro h0
    have hd0 : (build_prompt metrics).data = [] := by rw [h0]
    rw [hd0] at hcpu
    have h1 : "CPU load:".data = [] := List.infix_nil.mp hcpu
    exact (by decide : "CPU load:".data ≠ []) h1
  have hstr : stripL (build_prompt metrics).data = (build_prompt metrics).data := by
    rw [hdata]
    exact stripL_idem _
  refine ⟨hne, hcpu, hmem, hsvc, hstr, ?_, ?_, ?_⟩
  · intro h
    have hsv : svcv = Json.obj [] := by rw [hsvcv, h]; rfl
    rw [hdata, hsv]
    have hshape : promptRaw cpuv memv (Json.obj []) =
        (tmplA.data ++ ((pyStr cpuv).data ++ (tmplB.data ++ (pyStr memv).data)))
          ++ '\n' :: (sp8 ++ ("Services: \x7b\x7d".data ++ tmplD.data)) := by
      simp only [promptRaw]
      rw [show (pyStr (Json.obj [])).data = "\x7b\x7d".data from by decide,
        show tmplC.data = '\n' :: (sp8 ++ ("Services:".data ++ [' '])) from by decide]
      simp [List.append_assoc]
    exact infix_stripL_dedentL _ _ _ _ 'S' '\x7d' hshape (by decide) (by decide)
      (by decide) (by decide) (by decide)
  · intro h
    have hsv : memv = Json.obj [] := by rw [hmemv, h]; rfl
    rw [hdata, hsv]
    have hshape : promptRaw cpuv (Json.obj []) svcv =
        (tmplA.data ++ (pyStr cpuv).data)
          ++ '\n' :: (sp8 ++ ("Memory: \x7b\x7d".data ++
            (tmplC.data ++ ((pyStr svcv).data ++ tmplD.data)))) := by
      simp only [promptRaw]
      rw [show (pyStr (Json.obj [])).data = "\x7b\x7d".data from by decide,
        show tmplB.data = '\n' :: (sp8 ++ ("Memory:".data ++ [' '])) from by decide]
      simp [List.append_assoc]
    exact infix_stripL_dedentL _ _ _ _ 'M' '\x7d' hshape (by decide) (by decide)
      (by decide) (by decide) (by decide)
  · intro h
    have hsv : cpuv = Json.obj [] := by rw [hcpuv, h]; rfl
    rw [hdata, hsv]
    have hshape : promptRaw (Json.obj []) memv svcv =
        "\n        You are the CustomOS Guardian, a concise monitoring assistant.\n\n        Your job:\n          - Look at CPU, memory, and service status.\n          - Respond with ONE or two short sentences.\n          - If everything looks fine, say \"All systems green.\"\n          - If any problem is detected, mention it explicitly\n            (e.g., \"Issue detected in Plex service\").\n\n        Data (JSON):".data
          ++ '\n' :: (sp8 ++ ("CPU load: \x7b\x7d".data ++
            (tmplB.data ++ ((pyStr memv).data ++ (tmplC.data ++
              ((pyStr svcv).data ++ tmplD.data)))))) := by
      simp only [promptRaw]
      rw [show (pyStr (Json.obj [])).data = "\x7b\x7d".data from by decide,
        show tmplA.data =
          "\n        You are the CustomOS Guardian, a concise monitoring assistant.\n\n        Your job:\n          - Look at CPU, memory, and service status.\n          - Respond with ONE or two short sentences.\n          - If everything looks fine, say \"All systems green.\"\n          - If any problem is detected, mention it explicitly\n            (e.g., \"Issue detected in Plex service\").\n\n        Data (JSON):".data
            ++ '\n' :: (sp8 ++ ("CPU load:".data ++ [' '])) from by decide]
      simp [List.append_assoc]
    exact infix_stripL_dedentL _ _ _ _ 'C' '\x7d' hshape (by decide) (by decide)
      (by decide) (by decide) (by decide)

/-- Claim C4 witness: at the concrete input `[]` (the empty mapping, i.e.
input `\x7b\x7d`) the absent-key hypotheses hold and the rendered prompt
contains the three "key: empty mapping" fragments. -/
theorem spec_c4_witness :
    dictGet [] "services" = none ∧ dictGet [] "memory" = none ∧
    dictGet [] "cpu_load" = none ∧
    "Services: \x7b\x7d".data <:+: (build_prompt []).data ∧
    "Memory: \x7b\x7d".data <:+: (build_prompt []).data ∧
    "CPU load: \x7b\x7d".data <:+: (build_prompt []).data :=
  ⟨rfl, rfl, rfl,
    (spec_c4 []).2.2.2.2.2.1 rfl,
    (spec_c4 []).2.2.2.2.2.2.1 rfl,
    (spec_c4 []).2.2.2.2.2.2.2 rfl⟩

/-- Claim C1: along the enumerated execution paths — HTTP dependency
missing at startup, malformed stdin (a `json.loads` failure), inference
failure of any kind or success (any endpoint behaviour on an object
input) — the process exits with code 0; with the dependency missing it
exits with no output and no request issued. -/
theorem spec_c1 :
    (∀ env http stdin, mainProc env false http stdin = ⟨0, [], false, []⟩) ∧
    (∀ env http stdin, json_loads (pyOr stdin "\x7b\x7d") = none →
      mainProc env true http stdin = ⟨0, [], false, []⟩) ∧
    (∀ env http stdin kvs, json_loads (pyOr stdin "\x7b\x7d") = some (.obj kvs) →
      (mainProc env true http stdin).exitCode = 0) := by
  refine ⟨?_, ?_, ?_⟩
  · intro env http stdin
    simp [mainProc]
  · intro env http stdin h
    simp [mainProc, h]
  · intro env http stdin kvs h
    simp [mainProc, h]

/-- Claim C1 witness: concrete runs through the malformed-stdin path and
the success path. -/
theorem spec_c1_witness :
    (json_loads (pyOr "not json" "\x7b\x7d") = none ∧
      mainProc envDefault true httpExn "not json" = ⟨0, [], false, []⟩) ∧
    (json_loads (pyOr "\x7b\x7d" "\x7b\x7d") = some (.obj []) ∧
      (mainProc envDefault true httpExn "\x7b\x7d").exitCode = 0) :=
  ⟨⟨by decide, spec_c1.2.1 envDefault httpExn "not json" (by decide)⟩,
   ⟨by decide, spec_c1.2.2 envDefault httpExn "\x7b\x7d" [] (by decide)⟩⟩

/-- Claim C2 counterexample: `"[]"` is syntactically valid JSON parsing to
a non-object, yet the process does not terminate with exit code 0: the
call `metrics.get(...)` in `build_prompt` raises an uncaught
`AttributeError`, so Python exits with code 1 (and a traceback on
stderr). -/
theorem spec_c2_counterexample :
    json_loads "[]" = some (.arr []) ∧
    (mainProc envDefault true httpExn "[]").exitCode ≠ 0 := by
  exact ⟨by decide, by decide⟩

/-- Claim C2 (amended): for every stdin input that is syntactically valid
JSON but parses to a non-object value, the program crashes with an
uncaught `AttributeError` inside `build_prompt` — exit code 1, no stdout
output, and no HTTP request issued. -/
theorem spec_c2 (env : Env) (http : Request → HttpResult) (s : String) (v : Json)
    (hp : json_loads s = some v) (hno : v.isObj = false) :
    mainProc env true http s = ⟨1, [], true, []⟩ := by
  have hs : s ≠ "" := by
    intro h0
    rw [h0, show json_loads "" = none from by decide] at hp
    cases hp
  have hpy : pyOr s "\x7b\x7d" = s := by simp [pyOr, hs]
  cases v with
  | null => simp [mainProc, hpy, hp]
  | bool b => simp [mainProc, hpy, hp]
  | num n => simp [mainProc, hpy, hp]
  | str s2 => simp [mainProc, hpy, hp]
  | arr xs => simp [mainProc, hpy, hp]
  | obj kvs => simp [Json.isObj] at hno

/-- Claim C2 witness: the amended claim at the concrete input `"[]"`. -/
theorem spec_c2_witness :
    json_loads "[]" = some (.arr []) ∧ (Json.arr []).isObj = false ∧
    mainProc envDefault true httpExn "[]" = ⟨1, [], true, []⟩ :=
  ⟨by decide, by decide,
    spec_c2 envDefault httpExn "[]" (.arr []) (by decide) (by decide)⟩

/-- Claim C3: `call_ollama` never raises (it is a total function into
`String`) and yields the empty string for every failing HTTP behaviour:
any exception during the request (connection refused, timeout, ...), a
4xx/5xx status — exactly what `raise_for_status` raises on — or a
response body that is not JSON (`resp.json()` raises, caught). -/
theorem spec_c3 (env : Env) (prompt : String) (st : Nat) (b : Option Json) :
    call_ollama env (fun _ => .exn) prompt = "" ∧
    (400 ≤ st → st < 600 → call_ollama env (fun _ => .resp st b) prompt = "") ∧
    call_ollama env (fun _ => .resp st none) prompt = "" := by
  refine ⟨rfl, ?_, ?_⟩
  · intro h1 h2
    simp [call_ollama, h1, h2]
  · by_cases h : 400 ≤ st ∧ st < 600
    · simp [call_ollama, h]
    · simp [call_ollama, h]

/-- Claim C3 witness: a 500 response with a well-formed JSON body still
yields the empty string. -/
theorem spec_c3_witness :
    (400 ≤ 500 ∧ 500 < 600) ∧
    call_ollama envDefault
      (fun _ => .resp 500 (some (.obj [("response", .str "hi")]))) "p" = "" :=
  ⟨by decide,
    (spec_c3 envDefault "p" 500 (some (.obj [("response", .str "hi")]))).2.1
      (by decide) (by decide)⟩

/-- Claim C5: a 200 response whose JSON body maps "response" to the string
`s` makes the program print exactly `s` stripped of surrounding whitespace
(one stdout line), provided the stripped value is non-empty; in particular
body response "All systems green." prints exactly that, and response
"  padded text  " prints "padded text". -/
theorem spec_c5 :
    (∀ env stdin kvs s, json_loads (pyOr stdin "\x7b\x7d") = some (.obj kvs) →
      pyStripS s ≠ "" →
      (mainProc env true (httpOK s) stdin).stdout = [pyStripS s]) ∧
    (mainProc envDefault true (httpOK "All systems green.") "\x7b\x7d").stdout =
      ["All systems green."] ∧
    (mainProc envDefault true (httpOK "  padded text  ") "\x7b\x7d").stdout =
      ["padded text"] := by
  have huni : ∀ env stdin kvs s, json_loads (pyOr stdin "\x7b\x7d") = some (.obj kvs) →
      pyStripS s ≠ "" →
      (mainProc env true (httpOK s) stdin).stdout = [pyStripS s] := by
    intro env stdin kvs s hp hns
    have hsne : s ≠ "" := by
      intro h0
      rw [h0] at hns
      exact hns (by decide)
    have hcall : call_ollama env (httpOK s) (build_prompt kvs) = pyStripS s := by
      simp [call_ollama, httpOK, extractVerdict, dictGet, jor, truthy, hsne]
    simp [mainProc, hp, hcall, hns]
  refine ⟨huni, ?_, ?_⟩
  · have h := huni envDefault "\x7b\x7d" [] "All systems green." (by decide) (by decide)
    rw [show pyStripS "All systems green." = "All systems green." from by decide] at h
    exact h
  · have h := huni envDefault "\x7b\x7d" [] "  padded text  " (by decide) (by decide)
    rw [show pyStripS "  padded text  " = "padded text" from by decide] at h
    exact h

/-- Claim C5 witness: the universally quantified part applied to the
concrete run with response "ok" on input `\x7b\x7d`. -/
theorem spec_c5_witness :
    json_loads (pyOr "\x7b\x7d" "\x7b\x7d") = some (.obj []) ∧
    pyStripS "ok" ≠ "" ∧
    (mainProc envDefault true (httpOK "ok") "\x7b\x7d").stdout = [pyStripS "ok"] :=
  ⟨by decide, by decide,
    spec_c5.1 envDefault "\x7b\x7d" [] "ok" (by decide) (by decide)⟩

/-- Claim C6 counterexample: with body
`\x7b"response": "", "text": "hi"\x7d` both keys are present, yet the
extracted verdict is "hi" — the value under "text" — not the value under
"response" (which would strip to ""): the fallback is driven by Python
truthiness, not by key presence alone. -/
theorem spec_c6_counterexample :
    call_ollama envDefault
      (fun _ => .resp 200 (some (.obj [("response", .str ""), ("text", .str "hi")])))
      "p" = "hi" ∧ ("hi" : String) ≠ pyStripS "" := by
  exact ⟨by decide, by decide⟩

/-- Claim C6 (amended): the text field is extracted by trying the primary
key "response" and then the fallback key "text", where a key wins when its
value is truthy: when both keys are present and the value under "response"
is a truthy (non-empty) string, that value is used; a falsy "response"
falls through to "text" (claim C10); when neither key is present,
`call_ollama` returns the empty string and the program prints nothing. -/
theorem spec_c6 :
    (∀ env prompt kvs s, dictGet kvs "response" = some (.str s) → s ≠ "" →
      call_ollama env (fun _ => .resp 200 (some (.obj kvs))) prompt = pyStripS s) ∧
    (∀ env prompt kvs, dictGet kvs "response" = none → dictGet kvs "text" = none →
      call_ollama env (fun _ => .resp 200 (some (.obj kvs))) prompt = "") ∧
    (∀ env stdin mkvs kvs, json_loads (pyOr stdin "\x7b\x7d") = some (.obj mkvs) →
      dictGet kvs "response" = none → dictGet kvs "text" = none →
      (mainProc env true (fun _ => .resp 200 (some (.obj kvs))) stdin).stdout = []) := by
  have h1 : ∀ env prompt kvs s, dictGet kvs "response" = some (.str s) → s ≠ "" →
      call_ollama env (fun _ => .resp 200 (some (.obj kvs))) prompt = pyStripS s := by
    intro env prompt kvs s hr hs
    simp [call_ollama, extractVerdict, hr, jor, truthy, hs]
  have h2 : ∀ env prompt kvs, dictGet kvs "response" = none → dictGet kvs "text" = none →
      call_ollama env (fun _ => .resp 200 (some (.obj kvs))) prompt = "" := by
    intro env prompt kvs hr ht
    have hps : pyStripS "" = "" := by decide
    simp [call_ollama, extractVerdict, hr, ht, jor, truthy, hps]
  refine ⟨h1, h2, ?_⟩
  intro env stdin mkvs kvs hp hr ht
  simp [mainProc, hp, h2 env (build_prompt mkvs) kvs hr ht]

/-- Claim C6 witness: a truthy "response" wins over a present "text", and
a body with neither key prints nothing. -/
theorem spec_c6_witness :
    (dictGet [("response", Json.str "yes"), ("text", Json.str "no")] "response" =
      some (.str "yes") ∧ ("yes" : String) ≠ "" ∧
      call_ollama envDefault
        (fun _ => .resp 200 (some (.obj [("response", .str "yes"), ("text", .str "no")])))
        "p" = pyStripS "yes") ∧
    (json_loads (pyOr "\x7b\x7d" "\x7b\x7d") = some (.obj []) ∧
      (mainProc envDefault true
        (fun _ => .resp 200 (some (.obj [("other", Json.num 1)]))) "\x7b\x7d").stdout = []) :=
  ⟨⟨by decide, by decide,
      spec_c6.1 envDefault "p" [("response", .str "yes"), ("text", .str "no")] "yes"
        (by decide) (by decide)⟩,
   ⟨by decide,
      spec_c6.2.2 envDefault "\x7b\x7d" [] [("other", Json.num 1)]
        (by decide) (by decide) (by decide)⟩⟩

/-- Claim C7 counterexample: the empty string is not valid JSON
(`json.loads("")` raises), yet on empty stdin the program does NOT stay
silent: `raw or "\x7b\x7d"` substitutes `\x7b\x7d`, and with a successful
endpoint it prints the verdict. -/
theorem spec_c7_counterexample :
    json_loads "" = none ∧
    (mainProc envDefault true (httpOK "ok") "").stdout = ["ok"] := by
  exact ⟨by decide, by decide⟩

/-- Claim C7 (amended): for every NON-EMPTY stdin input that is not valid
JSON, the program terminates silently with exit code 0, no output and no
request. -/
theorem spec_c7 (env : Env) (http : Request → HttpResult) (s : String)
    (hne : s ≠ "") (hp : json_loads s = none) :
    mainProc env true http s = ⟨0, [], false, []⟩ := by
  have hpy : pyOr s "\x7b\x7d" = s := by simp [pyOr, hne]
  simp [mainProc, hpy, hp]

/-- Claim C7 witness: the literal text "not json". -/
theorem spec_c7_witness :
    ("not json" : String) ≠ "" ∧ json_loads "not json" = none ∧
    mainProc envDefault true httpExn "not json" = ⟨0, [], false, []⟩ :=
  ⟨by decide, by decide,
    spec_c7 envDefault httpExn "not json" (by decide) (by decide)⟩

/-- Claim C8: the run on empty stdin is identical — same exit code, same
output, same crash state, same requests — to the run on `\x7b\x7d`, for
every environment, dependency state and endpoint behaviour. -/
theorem spec_c8 (env : Env) (dep : Bool) (http : Request → HttpResult) :
    mainProc env dep http "" = mainProc env dep http "\x7b\x7d" := by
  have h1 : pyOr "" "\x7b\x7d" = "\x7b\x7d" := by simp [pyOr]
  have h2 : pyOr "\x7b\x7d" "\x7b\x7d" = "\x7b\x7d" := by simp [pyOr]
  simp only [mainProc, h1, h2]

/-- Claim C9: on an object input the program issues exactly one HTTP
request — a POST to `OLLAMA_API_URL` with JSON body `\x7b"model": model,
"prompt": the built prompt, "stream": false\x7d` and a 15-second timeout —
and the two environment-sourced configuration values default to
"http://localhost:11434/api/generate" and "llama3" when unset. -/
theorem spec_c9 :
    (∀ env http stdin kvs, json_loads (pyOr stdin "\x7b\x7d") = some (.obj kvs) →
      (mainProc env true http stdin).requests =
        [⟨"POST", OLLAMA_API_URL env,
          .obj [("model", .str (OLLAMA_MODEL env)),
                ("prompt", .str (build_prompt kvs)),
                ("stream", .bool false)], 15⟩]) ∧
    OLLAMA_API_URL envDefault = "http://localhost:11434/api/generate" ∧
    OLLAMA_MODEL envDefault = "llama3" := by
  refine ⟨?_, rfl, rfl⟩
  intro env http stdin kvs hp
  simp [mainProc, hp, ollamaRequest]

/-- Claim C9 witness: the request issued for input `\x7b\x7d` under the
default environment. -/
theorem spec_c9_witness :
    json_loads (pyOr "\x7b\x7d" "\x7b\x7d") = some (.obj []) ∧
    (mainProc envDefault true httpExn "\x7b\x7d").requests =
      [⟨"POST", OLLAMA_API_URL envDefault,
        .obj [("model", .str (OLLAMA_MODEL envDefault)),
              ("prompt", .str (build_prompt [])),
              ("stream", .bool false)], 15⟩] :=
  ⟨by decide, spec_c9.1 envDefault httpExn "\x7b\x7d" [] (by decide)⟩

/-- Claim C10 counterexample: with "response" falsy and "text" the
non-empty string " ", `call_ollama` returns `" ".strip() = ""` but the
program prints nothing at all — it does not print the (empty) stripped
value, so the printing clause needs the stripped value to be non-empty. -/
theorem spec_c10_counterexample :
    call_ollama envDefault
      (fun _ => .resp 200 (some (.obj [("response", .str ""), ("text", .str " ")])))
      "p" = pyStripS " " ∧
    (mainProc envDefault true
      (fun _ => .resp 200 (some (.obj [("response", .str ""), ("text", .str " ")])))
      "\x7b\x7d").stdout ≠ [pyStripS " "] := by
  exact ⟨by decide, by decide⟩

/-- Claim C10 (amended): the fallback is on falsiness, not absence: when
the body maps "response" to a falsy value (empty string, null, 0, ...) and
"text" to a non-empty string `s`, `call_ollama` returns `s` stripped, and
the program prints it provided the stripped value is non-empty. -/
theorem spec_c10 :
    (∀ env prompt kvs v s, dictGet kvs "response" = some v → truthy v = false →
      dictGet kvs "text" = some (.str s) → s ≠ "" →
      call_ollama env (fun _ => .resp 200 (some (.obj kvs))) prompt = pyStripS s) ∧
    (∀ env stdin mkvs kvs v s, json_loads (pyOr stdin "\x7b\x7d") = some (.obj mkvs) →
      dictGet kvs "response" = some v → truthy v = false →
      dictGet kvs "text" = some (.str s) → pyStripS s ≠ "" →
      (mainProc env true (fun _ => .resp 200 (some (.obj kvs))) stdin).stdout =
        [pyStripS s]) := by
  have h1 : ∀ env prompt kvs v s, dictGet kvs "response" = some v → truthy v = false →
      dictGet kvs "text" = some (.str s) → s ≠ "" →
      call_ollama env (fun _ => .resp 200 (some (.obj kvs))) prompt = pyStripS s := by
    intro env prompt kvs v s hr hfv ht hs
    have hst : truthy (Json.str s) = true := by simp [truthy, hs]
    simp [call_ollama, extractVerdict, hr, ht, jor, hfv, hst]
  refine ⟨h1, ?_⟩
  intro env stdin mkvs kvs v s hp hr hfv ht hps
  have hs : s ≠ "" := by
    intro h0
    rw [h0] at hps
    exact hps (by decide)
  simp [mainProc, hp, h1 env (build_prompt mkvs) kvs v s hr hfv ht hs, hps]

/-- Claim C10 witness: "response" = null and "text" = " hi " yields
"hi". -/
theorem spec_c10_witness :
    (dictGet [("response", Json.null), ("text", Json.str " hi ")] "response" =
      some Json.null ∧ truthy Json.null = false ∧
    dictGet [("response", Json.null), ("text", Json.str " hi ")] "text" =
      some (.str " hi ") ∧ (" hi " : String) ≠ "") ∧
    call_ollama envDefault
      (fun _ => .resp 200 (some (.obj [("response", Json.null), ("text", Json.str " hi ")])))
      "p" = pyStripS " hi " :=
  ⟨⟨by decide, by decide, by decide, by decide⟩,
    spec_c10.1 envDefault "p" [("response", Json.null), ("text", Json.str " hi ")]
      Json.null " hi " (by decide) (by decide) (by decide) (by decide)⟩


/-! Fidelity checks of the embedded parser and renderer on concrete inputs. -/

example : json_loads "\x7b\x7d" = some (.obj []) := by decide
example : json_loads "" = none := by decide
example : json_loads "not json" = none := by decide
example : json_loads "[]" = some (.arr []) := by decide
example : json_loads " \x7b\"a\": [1, -2, null], \"b\": \"x\\n\"\x7d " =
    some (.obj [("a", .arr [.num 1, .num (-2), .null]), ("b", .str "x\n")]) := by decide
example : json_loads "\x7b\"a\": 1, \"a\": 2\x7d" = some (.obj [("a", .num 2)]) := by decide
example : json_loads "01" = none := by decide
example : json_loads "\x7b\x7d x" = none := by decide
example : pyStr (.obj []) = "\x7b\x7d" := by decide
example : pyStr (.obj [("a", .num 1), ("b", .str "x")]) = "\x7b'a': 1, 'b': 'x'\x7d" := by
  decide
example : pyStr (.str "plain") = "plain" := by decide
example : pyStr (.arr [.null, .bool true]) = "[None, True]" := by decide
